import Mathlib

/-!
Verification of the windowed sampling and training loop of the NIDS-Framework
repository (`src/NIDS_Framework`), as a shallow embedding in Lean 4.

Embedding conventions:
* Record indices are integers (`ℤ`): the Python code can form negative indices
  (e.g. `torch.arange(start - window_size + 1, start + 1)` with a small anchor),
  and we must be able to observe that.
* Python's process-global `random` module is modeled by a `PyRandom` state
  (the seed together with a position in the seed's stream) plus an abstract
  entropy function `f : ℕ → ℕ → ℕ` giving the raw output of the Mersenne
  twister at a given seed and position.  All sampler operations thread this
  global state explicitly, exactly where the Python code consumes it.
* Floating point losses and tensor entries are modeled as rationals (`ℚ`).
* Python exceptions are modeled by `Except PyError`.
-/

namespace NIDS

/-- Exceptions raised by the embedded code paths. -/
inductive PyError where
  | valueError : PyError
  | zeroDivisionError : PyError
  | unboundLocalError : PyError
  | fileNotFoundError : PyError
deriving DecidableEq, Repr

/-- State of Python's process-global `random` module: the last seed set and the
current position in that seed's raw output stream. -/
structure PyRandom where
  seed : ℕ
  pos : ℕ
deriving DecidableEq, Repr

/-- Model of `random.seed(n)`: the global generator restarts at position 0 of
seed `n`'s stream. -/
def PyRandom.fresh (n : ℕ) : PyRandom := ⟨n, 0⟩

/-- Draw the next raw value from the global generator (entropy given by `f`). -/
def PyRandom.raw (f : ℕ → ℕ → ℕ) (g : PyRandom) : ℕ × PyRandom :=
  (f g.seed g.pos, ⟨g.seed, g.pos + 1⟩)

/-- Model of `random.randint(lo, hi)` (both endpoints inclusive, `lo ≤ hi` at
every call site that is reached): the next raw draw reduced into `[lo, hi]`. -/
def PyRandom.randint (f : ℕ → ℕ → ℕ) (lo hi : ℤ) (g : PyRandom) : ℤ × PyRandom :=
  let (n, g') := g.raw f
  (lo + (n : ℤ) % (hi - lo + 1), g')

/-- Model of `random.shuffle(xs)`: the next raw draw selects one of the
permutations of `xs` (every permutation is reachable for a suitable entropy
function, and the result is always a permutation of the input). -/
def PyRandom.shuffle (f : ℕ → ℕ → ℕ) (xs : List ℤ) (g : PyRandom) :
    List ℤ × PyRandom :=
  let (n, g') := g.raw f
  ((xs.permutations.get? (n % xs.permutations.length)).getD xs, g')

/-- Model of `torch.arange(a, b)` / `range(a, b)` over integers:
`[a, a+1, ..., b-1]`. -/
def arange (a b : ℤ) : List ℤ :=
  (List.range (b - a).toNat).map (fun (k : ℕ) => a + (k : ℤ))

/-- The window of size `ws` anchored at `a`:
`torch.arange(start - window_size + 1, start + 1)` in the samplers. -/
def windowAt (ws a : ℤ) : List ℤ := arange (a - ws + 1) (a + 1)

/-- A list of integers is strictly consecutive when every element is followed
by its successor. -/
def StrictlyConsecutive (w : List ℤ) : Prop :=
  List.Chain' (fun x y => y = x + 1) w

/-- A valid window for a store of `N` records and window size `ws`: exactly
`ws` indices, strictly consecutive, all within `[0, N-1]`. -/
def GoodWindow (N : ℕ) (ws : ℤ) (w : List ℤ) : Prop :=
  (w.length : ℤ) = ws ∧ StrictlyConsecutive w ∧
    ∀ i ∈ w, 0 ≤ i ∧ i ≤ (N : ℤ) - 1

/-! ### RandomSlidingWindowSampler (`data/samplers.py`, lines 9-28) -/

/-- Translation of the fields of `RandomSlidingWindowSampler`. -/
structure RandomSlidingWindowSampler where
  datasetLen : ℕ
  windowSize : ℤ
  numSamples : ℤ
deriving DecidableEq, Repr

/-- `RandomSlidingWindowSampler.__init__`: records the dataset, the window
size, `num_samples = len(dataset) - window_size + 1` (no validation of any
kind), and reseeds the process-global generator with the constant 42. -/
def RandomSlidingWindowSampler.init (datasetLen : ℕ) (windowSize : ℤ)
    (g : PyRandom) : RandomSlidingWindowSampler × PyRandom :=
  let _ := g
  (⟨datasetLen, windowSize, (datasetLen : ℤ) - windowSize + 1⟩, PyRandom.fresh 42)

/-- The list comprehension of `__iter__`: `n` successive draws of
`random.randint(lo, hi)` from the global generator. -/
def RandomSlidingWindowSampler.drawAnchors (f : ℕ → ℕ → ℕ) :
    ℕ → ℤ → ℤ → PyRandom → List ℤ × PyRandom
  | 0, _, _, g => ([], g)
  | n + 1, lo, hi, g =>
    let (a, g') := PyRandom.randint f lo hi g
    let (rest, g'') := RandomSlidingWindowSampler.drawAnchors f n lo hi g'
    (a :: rest, g'')

/-- `RandomSlidingWindowSampler.__iter__`: draws `num_samples` anchors with
`random.randint(window_size - 1, len(dataset) - 1)` and maps each anchor
`start` to `torch.arange(start - window_size + 1, start + 1)`. -/
def RandomSlidingWindowSampler.iter (f : ℕ → ℕ → ℕ)
    (s : RandomSlidingWindowSampler) (g : PyRandom) : List (List ℤ) × PyRandom :=
  let (anchors, g') := RandomSlidingWindowSampler.drawAnchors f
    s.numSamples.toNat (s.windowSize - 1) ((s.datasetLen : ℤ) - 1) g
  (anchors.map (fun a => windowAt s.windowSize a), g')

/-- `RandomSlidingWindowSampler.__len__`. -/
def RandomSlidingWindowSampler.lenReport (s : RandomSlidingWindowSampler) : ℤ :=
  s.numSamples

/-! ### FixedWindowSampler (`data/samplers.py`, lines 31-57) -/

/-- Translation of the fields of `FixedWindowSampler`: the externally supplied
anchor list (a `pd.Series` of indices), the window size, and
`num_samples = len(indices)`. -/
structure FixedWindowSampler where
  indices : List ℤ
  windowSize : ℤ
  numSamples : ℕ
deriving DecidableEq, Repr

/-- `FixedWindowSampler.__init__`: stores the supplied anchors and window size
with no validation of any kind. -/
def FixedWindowSampler.init (indices : List ℤ) (windowSize : ℤ) :
    FixedWindowSampler :=
  ⟨indices, windowSize, indices.length⟩

/-- Model of `pandas.Series.sample(frac=1)` (a full shuffle drawn from numpy's
own generator, separate from Python's `random` module): the draw `n` selects
one of the permutations of the series. -/
def FixedWindowSampler.pandasShuffle (n : ℕ) (xs : List ℤ) : List ℤ :=
  (xs.permutations.get? (n % xs.permutations.length)).getD xs

/-- `FixedWindowSampler.__iter__`: shuffles the supplied anchors and maps each
anchor `start` to `torch.arange(start - window_size + 1, start + 1).tolist()`;
`n` is the numpy draw selecting the shuffle of this pass. -/
def FixedWindowSampler.iter (s : FixedWindowSampler) (n : ℕ) : List (List ℤ) :=
  (FixedWindowSampler.pandasShuffle n s.indices).map
    (fun a => windowAt s.windowSize a)

/-! ### FairSlidingWindowSampler (`data/samplers.py`, lines 60-100) -/

/-- The malicious eligible anchors computed in
`FairSlidingWindowSampler.__init__`: positions `i` of the label series with
`labels[i] != benign_label` and `i > window_size - 1`. -/
def eligibleMalicious {L : Type} [DecidableEq L] (labelsLen : ℕ) (label : ℕ → L)
    (benign : L) (ws : ℤ) : List ℤ :=
  ((List.range labelsLen).filter
    (fun i => label i ≠ benign ∧ ws - 1 < (i : ℤ))).map (fun (i : ℕ) => (i : ℤ))

/-- The legit (benign) eligible anchors computed in
`FairSlidingWindowSampler.__init__`: positions `i` with
`labels[i] == benign_label` and `i > window_size - 1`. -/
def eligibleLegit {L : Type} [DecidableEq L] (labelsLen : ℕ) (label : ℕ → L)
    (benign : L) (ws : ℤ) : List ℤ :=
  ((List.range labelsLen).filter
    (fun i => label i = benign ∧ ws - 1 < (i : ℤ))).map (fun (i : ℕ) => (i : ℤ))

/-- Translation of the fields of `FairSlidingWindowSampler`; the index lists
are mutable (shuffled in place by every pass). -/
structure FairSlidingWindowSampler where
  windowSize : ℤ
  malicious : List ℤ
  legit : List ℤ
  numSamples : ℕ
deriving DecidableEq, Repr

/-- `FairSlidingWindowSampler.__init__`: raises `ValueError` when
`window_size % 2 != 0`; otherwise reseeds the global generator with 42,
partitions the eligible anchor positions of the label series (length
`labelsLen`, value `label i` at position `i`) by the benign label, and records
`num_samples = 2 * min(len(malicious), len(legit))`. -/
def FairSlidingWindowSampler.init {L : Type} [DecidableEq L] (labelsLen : ℕ)
    (label : ℕ → L) (benign : L) (windowSize : ℤ) (g : PyRandom) :
    Except PyError (FairSlidingWindowSampler × PyRandom) :=
  if windowSize % 2 ≠ 0 then .error .valueError
  else
    let _ := g
    let mal := eligibleMalicious labelsLen label benign windowSize
    let leg := eligibleLegit labelsLen label benign windowSize
    .ok (⟨windowSize, mal, leg, 2 * min mal.length leg.length⟩, PyRandom.fresh 42)

/-- `FairSlidingWindowSampler.__iter__`: shuffles both index lists in place
(consuming the global generator), then for every zipped pair appends the
malicious-anchored window followed by the legit-anchored window. -/
def FairSlidingWindowSampler.iter (f : ℕ → ℕ → ℕ) (s : FairSlidingWindowSampler)
    (g : PyRandom) : List (List ℤ) × FairSlidingWindowSampler × PyRandom :=
  let (mal, g1) := PyRandom.shuffle f s.malicious g
  let (leg, g2) := PyRandom.shuffle f s.legit g1
  ((mal.zip leg).flatMap
      (fun p => [windowAt s.windowSize p.1, windowAt s.windowSize p.2]),
    { s with malicious := mal, legit := leg }, g2)

/-- `FairSlidingWindowSampler.__len__`. -/
def FairSlidingWindowSampler.lenReport (s : FairSlidingWindowSampler) : ℕ :=
  s.numSamples

/-- The sampler/generator state after `n` complete passes (each pass mutates
the index lists in place and advances the global generator). -/
def FairSlidingWindowSampler.passState (f : ℕ → ℕ → ℕ)
    (sg : FairSlidingWindowSampler × PyRandom) :
    ℕ → FairSlidingWindowSampler × PyRandom
  | 0 => sg
  | n + 1 =>
    (FairSlidingWindowSampler.iter f
      (FairSlidingWindowSampler.passState f sg n).1
      (FairSlidingWindowSampler.passState f sg n).2).2

/-- The windows emitted during pass `n` (passes counted from 0). -/
def FairSlidingWindowSampler.passWindows (f : ℕ → ℕ → ℕ)
    (sg : FairSlidingWindowSampler × PyRandom) (n : ℕ) : List (List ℤ) :=
  (FairSlidingWindowSampler.iter f
    (FairSlidingWindowSampler.passState f sg n).1
    (FairSlidingWindowSampler.passState f sg n).2).1

/-- Construct the sampler from the given global generator state and return the
windows of pass `n`; an odd window size raises at construction, so no pass
emits anything. -/
def FairSlidingWindowSampler.fairPasses {L : Type} [DecidableEq L]
    (f : ℕ → ℕ → ℕ) (labelsLen : ℕ) (label : ℕ → L) (benign : L) (ws : ℤ)
    (g : PyRandom) (n : ℕ) : List (List ℤ) :=
  match FairSlidingWindowSampler.init labelsLen label benign ws g with
  | .ok sg => FairSlidingWindowSampler.passWindows f sg n
  | .error _ => []

/-! ### EarlyStopping (`training/trainer.py`, lines 17-59)

The model parameter snapshot written by `save_checkpoint` to the fixed path
`checkpoints/checkpoint.pt` is folded into the state as the `checkpoint`
field (`none` = no file written yet); `val_loss_min` starts at `np.Inf`,
modeled as `none`.  `M` is the opaque type of model parameter snapshots. -/

/-- State of an `EarlyStopping` instance together with the checkpoint file it
writes. -/
structure ESState (M : Type) where
  patience : ℕ
  delta : ℚ
  counter : ℕ
  best_score : Option ℚ
  early_stop : Bool
  val_loss_min : Option ℚ
  checkpoint : Option M

/-- `EarlyStopping.__init__`. -/
def ESState.init (M : Type) (patience : ℕ) (delta : ℚ) : ESState M :=
  ⟨patience, delta, 0, none, false, none, none⟩

/-- `EarlyStopping.save_checkpoint`: overwrite the single checkpoint file with
the current model weights and record the loss. -/
def ESState.save_checkpoint {M : Type} (s : ESState M) (val_loss : ℚ)
    (model : M) : ESState M :=
  { s with checkpoint := some model, val_loss_min := some val_loss }

/-- Record a new best score (helper for the two checkpointing branches). -/
def ESState.setBest {M : Type} (s : ESState M) (score : ℚ) : ESState M :=
  { s with best_score := some score }

/-- `EarlyStopping.__call__`: score is the negated validation loss; the first
call records it as best and checkpoints; a call with
`score < best_score - best_score * delta` increments the counter and sets the
stop flag once the counter reaches `patience`; any other call updates the best
score, checkpoints, and resets the counter. -/
def ESState.call {M : Type} (s : ESState M) (val_loss : ℚ) (model : M) :
    ESState M :=
  let score := -val_loss
  match s.best_score with
  | none => (s.save_checkpoint val_loss model).setBest score
  | some best =>
    if score < best - best * s.delta then
      let counter := s.counter + 1
      { s with counter := counter,
               early_stop := if s.patience ≤ counter then true else s.early_stop }
    else
      { (s.save_checkpoint val_loss model).setBest score with counter := 0 }

/-- Feed a sequence of validation losses to an `EarlyStopping` instance, one
`__call__` per element (the model snapshot passed along is `model`). -/
def ESState.runCalls {M : Type} (s : ESState M) (losses : List ℚ) (model : M) :
    ESState M :=
  losses.foldl (fun st v => st.call v model) s

/-! ### Trainer (`training/trainer.py`, lines 62-251)

The model, criterion, optimizer and device are external collaborators: a
batch's contribution to the epoch loss is the scalar returned by
`_train_one_batch` / `_validate_one_batch`, abstracted as a function of the
pass number and the batch position.  A `DataLoader` has a fixed number of
batches per pass (`len(data_loader)`); iterating it a second time yields the
same count, with possibly different loss values since the model has moved.
Hook execution is a no-op for control flow (no callbacks registered). -/

/-- An external `DataLoader` collaborator: `numBatches` batches per pass
(`len(data_loader)`); `lossAt p i` is the scalar loss produced by batch `i`
of pass `p`. -/
structure Loader where
  numBatches : ℕ
  lossAt : ℕ → ℕ → ℚ

/-- The per-batch losses of pass `p`. -/
def Loader.passLosses (dl : Loader) (p : ℕ) : List ℚ :=
  (List.range dl.numBatches).map (dl.lossAt p)

/-- `Trainer.train_one_epoch`, over the per-batch losses of this pass: with
`epoch_steps` absent, run to exhaustion and divide by `len(data_loader)`
(Python raises `ZeroDivisionError` on an empty loader); with `epoch_steps`
given, first raise `ValueError` when it exceeds the batch count, otherwise
consume exactly the first `epoch_steps` batches and divide by `epoch_steps`
(Python raises `ZeroDivisionError` when `epoch_steps == 0`). -/
def Trainer.train_one_epoch (batchLosses : List ℚ) (epoch_steps : Option ℕ) :
    Except PyError ℚ :=
  match epoch_steps with
  | none =>
    if batchLosses.length = 0 then .error .zeroDivisionError
    else .ok (batchLosses.sum / (batchLosses.length : ℚ))
  | some k =>
    if batchLosses.length < k then .error .valueError
    else if k = 0 then .error .zeroDivisionError
    else .ok ((batchLosses.take k).sum / (k : ℚ))

/-- `Trainer.validate`: evaluation-mode pass over the whole loader, averaging
the per-batch losses. -/
def Trainer.validate (batchLosses : List ℚ) : Except PyError ℚ :=
  if batchLosses.length = 0 then .error .zeroDivisionError
  else .ok (batchLosses.sum / (batchLosses.length : ℚ))

/-- The validation trigger of `Trainer.train`:
`(epoch + 1) % epochs_until_validation == 0 or epoch + 1 == n_epoch`. -/
def Trainer.validationDue (n_epoch k epoch : ℕ) : Bool :=
  (epoch + 1) % k == 0 || epoch + 1 == n_epoch

/-- The epoch loop of `Trainer.train`.  Arguments: total epoch count, train
loader, `epoch_steps`, the validation configuration (`some (k, vdl)` exactly
when `valid_data_loader and epochs_until_validation` is truthy), the model
snapshot passed to early stopping at each epoch, remaining epochs, current
epoch index, accumulated loss, and the `early_stopping` local (`none` when the
`patience is not None and delta is not None` guard did not run; referencing it
then raises `UnboundLocalError`).  Returns the last executed epoch index and
the accumulated loss. -/
def Trainer.trainGo {M : Type} (n_epoch : ℕ) (tdl : Loader)
    (epoch_steps : Option ℕ) (vcfg : Option (ℕ × Loader)) (modelAt : ℕ → M) :
    ℕ → ℕ → ℚ → Option (ESState M) → Except PyError (ℕ × ℚ)
  | 0, e, acc, _ => .ok (e - 1, acc)
  | r + 1, e, acc, es =>
    match Trainer.train_one_epoch (tdl.passLosses e) epoch_steps with
    | .error err => .error err
    | .ok epoch_loss =>
      let acc := acc + epoch_loss
      match vcfg with
      | none => Trainer.trainGo n_epoch tdl epoch_steps vcfg modelAt r (e + 1) acc es
      | some (k, vdl) =>
        if Trainer.validationDue n_epoch k e then
          match Trainer.validate (vdl.passLosses e) with
          | .error err => .error err
          | .ok validation_loss =>
            match es with
            | none => .error .unboundLocalError
            | some st =>
              let st' := st.call validation_loss (modelAt e)
              if st'.early_stop then
                match st'.checkpoint with
                | none => .error .fileNotFoundError
                | some _ => .ok (e, acc)
              else
                Trainer.trainGo n_epoch tdl epoch_steps vcfg modelAt r (e + 1)
                  acc (some st')
        else Trainer.trainGo n_epoch tdl epoch_steps vcfg modelAt r (e + 1) acc es

/-- `Trainer.train`: creates the `early_stopping` local only when both
`patience` and `delta` are not `None`; runs the epoch loop; with a truthy
`valid_data_loader` (a loader is truthy iff `len > 0`) and a truthy (nonzero)
`epochs_until_validation`, validates on the trigger epochs, consults early
stopping, and on a stop signal reloads the checkpoint and breaks; finally
divides the accumulated loss by `epoch + 1` (with `n_epoch = 0` the loop
variable `epoch` is never bound and Python raises `UnboundLocalError`). -/
def Trainer.train {M : Type} (n_epoch : ℕ) (train_data_loader : Loader)
    (epoch_steps : Option ℕ) (epochs_until_validation : Option ℕ)
    (valid_data_loader : Option Loader) (patience : Option ℕ) (delta : Option ℚ)
    (modelAt : ℕ → M) : Except PyError ℚ :=
  let es : Option (ESState M) :=
    match patience, delta with
    | some p, some d => some (ESState.init M p d)
    | _, _ => none
  let vcfg : Option (ℕ × Loader) :=
    match valid_data_loader, epochs_until_validation with
    | some vdl, some k => if vdl.numBatches ≠ 0 ∧ k ≠ 0 then some (k, vdl) else none
    | _, _ => none
  if n_epoch = 0 then .error .unboundLocalError
  else
    match Trainer.trainGo n_epoch train_data_loader epoch_steps vcfg modelAt
        n_epoch 0 0 es with
    | .error err => .error err
    | .ok (lastEpoch, acc) => .ok (acc / ((lastEpoch : ℚ) + 1))

/-- `Trainer.test` entry check: `raise ValueError` when no metric accumulator
is supplied (`metric` is `none`); otherwise the metric's `step`/`apply` are
external collaborators. -/
def Trainer.testEntry {Metric : Type} (metric : Option Metric) :
    Except PyError Metric :=
  match metric with
  | none => .error .valueError
  | some m => .ok m

/-! ### TabularDataset (`data/tabular_datasets.py`)

Tensor entries are rationals (`torch.long` categorical codes are embedded in
`ℚ`).  A row is a `List ℚ`; fancy indexing `t[idx, :]` with an index list is
row selection.  The per-feature statistics are computed once by external
floating-point routines and never inspected by the core, so they are an
opaque value of type `S` handed to the transformation collaborators.  A
transformation collaborator (`Compose`) is a function on the `(data, stats)`
sample; an unset transformation (the falsy default `[]`) is `none`. -/

/-- Translation of the fields of `TabularBase`/`TabularDataset`. -/
structure TabularDataset (S : Type) where
  numeric : List (List ℚ)
  categorical : List (List ℚ)
  labels : List ℚ
  stats : S
  numericT : Option (List (List ℚ) × S → List (List ℚ) × S)
  categoricalT : Option (List (List ℚ) × S → List (List ℚ) × S)
  labelsT : Option (List ℚ × S → List ℚ × S)

/-- Apply an optional transformation to a `(data, stats)` sample and keep the
transformed `data` entry (the `if self._x_transformation:` guards). -/
def applyOpt {D S : Type} (t : Option (D × S → D × S)) (d : D) (st : S) : D :=
  match t with
  | some tf => (tf (d, st)).1
  | none => d

/-- `TabularBase.applyTransformation`: slice the three tensors at the window's
index list, then pass each slice (with the stats) through its optional
transformation. -/
def TabularDataset.applyTransformation {S : Type} (ds : TabularDataset S)
    (idx : List ℕ) : List (List ℚ) × List (List ℚ) × List ℚ :=
  (applyOpt ds.numericT (idx.map (fun i => ds.numeric.getD i [])) ds.stats,
   applyOpt ds.categoricalT (idx.map (fun i => ds.categorical.getD i [])) ds.stats,
   applyOpt ds.labelsT (idx.map (fun i => ds.labels.getD i 0)) ds.stats)

/-- `TabularDataset.__len__`. -/
def TabularDataset.lenReport {S : Type} (ds : TabularDataset S) : ℕ :=
  ds.labels.length

/-- `TabularDataset.__getitem__`: features are
`torch.cat((numeric_sample, categorical_sample), dim=-1)` (per-record row
concatenation), the target is `label_sample[..., -1]`, the last entry of the
label slice (`none` models the `IndexError` on an empty window). -/
def TabularDataset.getitem {S : Type} (ds : TabularDataset S) (idx : List ℕ) :
    List (List ℚ) × Option ℚ :=
  let (numericSample, categoricalSample, labelSample) := ds.applyTransformation idx
  (List.zipWith (fun r c => r ++ c) numericSample categoricalSample,
   labelSample.getLast?)

/-! ## General lemmas about the embedded operations -/

theorem length_arange (a b : ℤ) : (arange a b).length = (b - a).toNat := by
  rw [arange, List.length_map, List.length_range]

theorem mem_arange {a b i : ℤ} : i ∈ arange a b ↔ a ≤ i ∧ i < b := by
  rw [arange]
  constructor
  · intro h
    obtain ⟨k, hk, rfl⟩ := List.mem_map.1 h
    rw [List.mem_range] at hk
    omega
  · rintro ⟨h1, h2⟩
    refine List.mem_map.2 ⟨(i - a).toNat, List.mem_range.2 (by omega), by omega⟩

theorem arange_consecutive (a b : ℤ) : StrictlyConsecutive (arange a b) := by
  unfold StrictlyConsecutive arange
  rw [List.chain'_map]
  generalize (b - a).toNat = n
  cases n with
  | zero => exact List.chain'_nil
  | succ m =>
    rw [List.chain'_range_succ]
    intro k _
    push_cast
    ring

theorem windowAt_length {ws : ℤ} (hws : 0 ≤ ws) (a : ℤ) :
    ((windowAt ws a).length : ℤ) = ws := by
  rw [windowAt, length_arange]
  omega

theorem mem_windowAt {ws a i : ℤ} : i ∈ windowAt ws a ↔ a - ws + 1 ≤ i ∧ i ≤ a := by
  rw [windowAt, mem_arange]
  omega

theorem windowAt_good {N : ℕ} {ws a : ℤ} (hws : 0 ≤ ws)
    (h1 : ws - 1 ≤ a) (h2 : a ≤ (N : ℤ) - 1) : GoodWindow N ws (windowAt ws a) := by
  refine ⟨windowAt_length hws a, arange_consecutive _ _, ?_⟩
  intro i hi
  rw [mem_windowAt] at hi
  omega

theorem randint_mem {f : ℕ → ℕ → ℕ} {lo hi : ℤ} (h : lo ≤ hi) (g : PyRandom) :
    lo ≤ (PyRandom.randint f lo hi g).1 ∧ (PyRandom.randint f lo hi g).1 ≤ hi := by
  unfold PyRandom.randint PyRandom.raw
  have hpos : (0 : ℤ) < hi - lo + 1 := by omega
  have h1 : 0 ≤ ((f g.seed g.pos : ℤ)) % (hi - lo + 1) :=
    Int.emod_nonneg _ (by omega)
  have h2 : ((f g.seed g.pos : ℤ)) % (hi - lo + 1) < hi - lo + 1 :=
    Int.emod_lt_of_pos _ hpos
  constructor <;> simp <;> omega

theorem shuffle_perm (f : ℕ → ℕ → ℕ) (xs : List ℤ) (g : PyRandom) :
    (PyRandom.shuffle f xs g).1.Perm xs := by
  show ((xs.permutations.get? (f g.seed g.pos % xs.permutations.length)).getD xs).Perm xs
  cases h : xs.permutations.get? (f g.seed g.pos % xs.permutations.length) with
  | none => exact List.Perm.refl xs
  | some p =>
    rw [Option.getD_some]
    exact List.mem_permutations.1 (List.get?_mem h)

theorem pandasShuffle_perm (n : ℕ) (xs : List ℤ) :
    (FixedWindowSampler.pandasShuffle n xs).Perm xs := by
  unfold FixedWindowSampler.pandasShuffle
  cases h : xs.permutations.get? (n % xs.permutations.length) with
  | none => exact List.Perm.refl xs
  | some p =>
    rw [Option.getD_some]
    exact List.mem_permutations.1 (List.get?_mem h)

theorem drawAnchors_length (f : ℕ → ℕ → ℕ) :
    ∀ (n : ℕ) (lo hi : ℤ) (g : PyRandom),
      (RandomSlidingWindowSampler.drawAnchors f n lo hi g).1.length = n := by
  intro n
  induction n with
  | zero => intro lo hi g; rfl
  | succ n ih =>
    intro lo hi g
    simp only [RandomSlidingWindowSampler.drawAnchors, List.length_cons]
    rw [ih]

theorem drawAnchors_mem (f : ℕ → ℕ → ℕ) {lo hi : ℤ} (h : lo ≤ hi) :
    ∀ (n : ℕ) (g : PyRandom) (a : ℤ),
      a ∈ (RandomSlidingWindowSampler.drawAnchors f n lo hi g).1 →
      lo ≤ a ∧ a ≤ hi := by
  intro n
  induction n with
  | zero =>
    intro g a ha
    simp [RandomSlidingWindowSampler.drawAnchors] at ha
  | succ n ih =>
    intro g a ha
    simp only [RandomSlidingWindowSampler.drawAnchors, List.mem_cons] at ha
    rcases ha with rfl | ha
    · exact randint_mem h g
    · exact ih _ _ ha

theorem fair_iter_preserves (f : ℕ → ℕ → ℕ) (s : FairSlidingWindowSampler)
    (g : PyRandom) :
    (FairSlidingWindowSampler.iter f s g).2.1.windowSize = s.windowSize ∧
      (FairSlidingWindowSampler.iter f s g).2.1.malicious.Perm s.malicious ∧
      (FairSlidingWindowSampler.iter f s g).2.1.legit.Perm s.legit := by
  refine ⟨rfl, ?_, ?_⟩
  · exact shuffle_perm f s.malicious g
  · exact shuffle_perm f s.legit _

theorem fair_passState_preserves (f : ℕ → ℕ → ℕ)
    (sg : FairSlidingWindowSampler × PyRandom) :
    ∀ n : ℕ,
      (FairSlidingWindowSampler.passState f sg n).1.windowSize = sg.1.windowSize ∧
      (FairSlidingWindowSampler.passState f sg n).1.malicious.Perm sg.1.malicious ∧
      (FairSlidingWindowSampler.passState f sg n).1.legit.Perm sg.1.legit := by
  intro n
  induction n with
  | zero => exact ⟨rfl, List.Perm.refl _, List.Perm.refl _⟩
  | succ n ih =>
    obtain ⟨hw, hm, hl⟩ := ih
    obtain ⟨hw', hm', hl'⟩ := fair_iter_preserves f
      (FairSlidingWindowSampler.passState f sg n).1
      (FairSlidingWindowSampler.passState f sg n).2
    refine ⟨?_, ?_, ?_⟩
    · rw [FairSlidingWindowSampler.passState, hw', hw]
    · rw [FairSlidingWindowSampler.passState]; exact hm'.trans hm
    · rw [FairSlidingWindowSampler.passState]; exact hl'.trans hl

theorem mem_eligibleMalicious {L : Type} [DecidableEq L] {labelsLen : ℕ}
    {label : ℕ → L} {benign : L} {ws : ℤ} {a : ℤ} :
    a ∈ eligibleMalicious labelsLen label benign ws ↔
      ∃ i : ℕ, a = (i : ℤ) ∧ i < labelsLen ∧ label i ≠ benign ∧ ws - 1 < (i : ℤ) := by
  unfold eligibleMalicious
  simp only [List.mem_map, List.mem_filter, List.mem_range, decide_eq_true_eq]
  constructor
  · rintro ⟨i, ⟨hi, hl, hw⟩, rfl⟩
    exact ⟨i, rfl, hi, hl, hw⟩
  · rintro ⟨i, rfl, hi, hl, hw⟩
    exact ⟨i, ⟨hi, hl, hw⟩, rfl⟩

theorem mem_eligibleLegit {L : Type} [DecidableEq L] {labelsLen : ℕ}
    {label : ℕ → L} {benign : L} {ws : ℤ} {a : ℤ} :
    a ∈ eligibleLegit labelsLen label benign ws ↔
      ∃ i : ℕ, a = (i : ℤ) ∧ i < labelsLen ∧ label i = benign ∧ ws - 1 < (i : ℤ) := by
  unfold eligibleLegit
  simp only [List.mem_map, List.mem_filter, List.mem_range, decide_eq_true_eq]
  constructor
  · rintro ⟨i, ⟨hi, hl, hw⟩, rfl⟩
    exact ⟨i, rfl, hi, hl, hw⟩
  · rintro ⟨i, rfl, hi, hl, hw⟩
    exact ⟨i, ⟨hi, hl, hw⟩, rfl⟩

theorem fair_init_ok {L : Type} [DecidableEq L] {labelsLen : ℕ} {label : ℕ → L}
    {benign : L} {ws : ℤ} {g : PyRandom}
    {sg : FairSlidingWindowSampler × PyRandom}
    (h : FairSlidingWindowSampler.init labelsLen label benign ws g = .ok sg) :
    ws % 2 = 0 ∧ sg.2 = PyRandom.fresh 42 ∧ sg.1.windowSize = ws ∧
      sg.1.malicious = eligibleMalicious labelsLen label benign ws ∧
      sg.1.legit = eligibleLegit labelsLen label benign ws ∧
      sg.1.numSamples = 2 * min (eligibleMalicious labelsLen label benign ws).length
        (eligibleLegit labelsLen label benign ws).length := by
  unfold FairSlidingWindowSampler.init at h
  split at h
  · cases h
  · next hcond =>
    rw [Except.ok.injEq] at h
    subst h
    exact ⟨by omega, rfl, rfl, rfl, rfl, rfl⟩

theorem fair_init_error {L : Type} [DecidableEq L] {labelsLen : ℕ}
    {label : ℕ → L} {benign : L} {ws : ℤ} {g : PyRandom} :
    (∃ err, FairSlidingWindowSampler.init labelsLen label benign ws g = .error err)
      ↔ ws % 2 ≠ 0 := by
  unfold FairSlidingWindowSampler.init
  split
  · next hodd => exact ⟨fun _ => hodd, fun _ => ⟨.valueError, rfl⟩⟩
  · next hcond =>
    constructor
    · rintro ⟨err, herr⟩
      cases herr
    · intro hh
      exact absurd hh hcond

theorem fair_passWindows_eq (f : ℕ → ℕ → ℕ)
    (sg : FairSlidingWindowSampler × PyRandom) (n : ℕ) :
    ∃ mal leg : List ℤ, mal.Perm sg.1.malicious ∧ leg.Perm sg.1.legit ∧
      FairSlidingWindowSampler.passWindows f sg n =
        (mal.zip leg).flatMap
          (fun p => [windowAt sg.1.windowSize p.1, windowAt sg.1.windowSize p.2]) := by
  obtain ⟨hw, hm, hl⟩ := fair_passState_preserves f sg n
  set st := FairSlidingWindowSampler.passState f sg n with hst
  refine ⟨(PyRandom.shuffle f st.1.malicious st.2).1,
    (PyRandom.shuffle f st.1.legit (PyRandom.shuffle f st.1.malicious st.2).2).1,
    (shuffle_perm f _ _).trans hm, (shuffle_perm f _ _).trans hl, ?_⟩
  show (FairSlidingWindowSampler.iter f st.1 st.2).1 = _
  unfold FairSlidingWindowSampler.iter
  rw [hw]

theorem flatMap_pair_length {α β : Type} (l : List α) (u v : α → β) :
    (l.flatMap (fun p => [u p, v p])).length = 2 * l.length := by
  induction l with
  | nil => rfl
  | cons x xs ih =>
    rw [List.flatMap_cons, List.length_append, ih, List.length_cons]
    simp
    omega

theorem ESState.call_first {M : Type} {s : ESState M} (h : s.best_score = none)
    (v : ℚ) (m : M) : s.call v m = (s.save_checkpoint v m).setBest (-v) := by
  unfold ESState.call
  split
  · rfl
  · next b hsome => rw [h] at hsome; cases hsome

theorem ESState.call_worse {M : Type} {s : ESState M} {b : ℚ}
    (h : s.best_score = some b) (v : ℚ) (m : M)
    (hlt : -v < b - b * s.delta) :
    s.call v m =
      { s with
          counter := s.counter + 1,
          early_stop := if s.patience ≤ s.counter + 1 then true else s.early_stop } := by
  unfold ESState.call
  split
  · next hnone => rw [h] at hnone; cases hnone
  · next b' hsome =>
    rw [h] at hsome
    injection hsome with hbb
    subst hbb
    rw [if_pos hlt]

theorem ESState.call_better {M : Type} {s : ESState M} {b : ℚ}
    (h : s.best_score = some b) (v : ℚ) (m : M)
    (hge : ¬(-v < b - b * s.delta)) :
    s.call v m = { (s.save_checkpoint v m).setBest (-v) with counter := 0 } := by
  unfold ESState.call
  split
  · next hnone => rw [h] at hnone; cases hnone
  · next b' hsome =>
    rw [h] at hsome
    injection hsome with hbb
    subst hbb
    rw [if_neg hge]

theorem random_iter_eq (f : ℕ → ℕ → ℕ) (s : RandomSlidingWindowSampler)
    (g : PyRandom) :
    RandomSlidingWindowSampler.iter f s g =
      ((RandomSlidingWindowSampler.drawAnchors f s.numSamples.toNat
          (s.windowSize - 1) ((s.datasetLen : ℤ) - 1) g).1.map
        (fun a => windowAt s.windowSize a),
       (RandomSlidingWindowSampler.drawAnchors f s.numSamples.toNat
          (s.windowSize - 1) ((s.datasetLen : ℤ) - 1) g).2) := rfl

/-! ## Claims -/

/-- Claim C3: for a store of `N` records with `1 ≤ window_size ≤ N`, the
`RandomSlidingWindowSampler` reports length `N - window_size + 1`, each pass
emits exactly `N - window_size + 1` windows, each anchor is drawn (with
replacement, one independent `randint` per window) from
`[window_size - 1, N - 1]` inclusive, and each emitted window is
`[anchor - window_size + 1, ..., anchor]`. -/
theorem random_sampler_contract (f : ℕ → ℕ → ℕ) (N : ℕ) (ws : ℤ)
    (g g' : PyRandom) (h2 : ws ≤ (N : ℤ)) :
    (RandomSlidingWindowSampler.init N ws g).1.lenReport = (N : ℤ) - ws + 1 ∧
    (((RandomSlidingWindowSampler.iter f (RandomSlidingWindowSampler.init N ws g).1
        g').1.length : ℤ) = (N : ℤ) - ws + 1) ∧
    ∀ w ∈ (RandomSlidingWindowSampler.iter f
        (RandomSlidingWindowSampler.init N ws g).1 g').1,
      ∃ a : ℤ, ws - 1 ≤ a ∧ a ≤ (N : ℤ) - 1 ∧ w = windowAt ws a := by
  refine ⟨rfl, ?_, ?_⟩
  · rw [random_iter_eq]
    simp only [List.length_map, drawAnchors_length]
    show (((((N : ℤ) - ws + 1)).toNat : ℤ)) = (N : ℤ) - ws + 1
    omega
  · intro w hw
    rw [random_iter_eq] at hw
    obtain ⟨a, ha, rfl⟩ := List.mem_map.1 hw
    obtain ⟨hlo, hhi⟩ := drawAnchors_mem f (by omega : ws - 1 ≤ (N : ℤ) - 1) _ _ _ ha
    exact ⟨a, hlo, hhi, rfl⟩

/-- Witness for C3 at `N = 10`, `window_size = 4` (the end-to-end scenario of
the spec: `num_samples = 7`). -/
theorem random_sampler_contract_witness :
    ((4 : ℤ) ≤ (10 : ℕ)) ∧
    ((RandomSlidingWindowSampler.init 10 4 (PyRandom.fresh 0)).1.lenReport =
        ((10 : ℕ) : ℤ) - 4 + 1 ∧
      (((RandomSlidingWindowSampler.iter (fun _ _ => 0)
          (RandomSlidingWindowSampler.init 10 4 (PyRandom.fresh 0)).1
          (PyRandom.fresh 42)).1.length : ℤ) = ((10 : ℕ) : ℤ) - 4 + 1) ∧
      ∀ w ∈ (RandomSlidingWindowSampler.iter (fun _ _ => 0)
          (RandomSlidingWindowSampler.init 10 4 (PyRandom.fresh 0)).1
          (PyRandom.fresh 42)).1,
        ∃ a : ℤ, 4 - 1 ≤ a ∧ a ≤ ((10 : ℕ) : ℤ) - 1 ∧ w = windowAt 4 a) :=
  ⟨by decide,
    random_sampler_contract (fun _ _ => 0) 10 4 (PyRandom.fresh 0)
      (PyRandom.fresh 42) (by decide)⟩

/-- Claim C7 (code bug): constructing a `RandomSlidingWindowSampler` with
`window_size > N` does NOT fail fast: `__init__` performs no validation, the
reported length is non-positive, and every pass silently yields zero windows.
Here `N = 3`, `window_size = 5`: the sampler is built with `num_samples = -1`
and its first pass is empty. -/
theorem random_sampler_no_failfast :
    (RandomSlidingWindowSampler.init 3 5 (PyRandom.fresh 0)).1.numSamples = -1 ∧
    (RandomSlidingWindowSampler.iter (fun _ _ => 0)
      (RandomSlidingWindowSampler.init 3 5 (PyRandom.fresh 0)).1
      (PyRandom.fresh 42)).1 = [] := by
  exact ⟨rfl, rfl⟩

/-- Claim C10: constructing a `RandomSlidingWindowSampler` or a (successfully
constructed) `FairSlidingWindowSampler` leaves the process-global generator in
the reseeded state `fresh 42`, regardless of the prior global state — so a
second construction resets the random state shared with any earlier sampler —
and two runs that construct the same sampler from any two prior global states
produce identical first-pass window sequences. -/
theorem global_seed_reset {L : Type} [DecidableEq L] (f : ℕ → ℕ → ℕ)
    (N labelsLen : ℕ) (ws : ℤ) (label : ℕ → L) (benign : L)
    (g₁ g₂ : PyRandom) :
    (RandomSlidingWindowSampler.init N ws g₁).2 = PyRandom.fresh 42 ∧
    (∀ out, FairSlidingWindowSampler.init labelsLen label benign ws g₁ = .ok out →
      out.2 = PyRandom.fresh 42) ∧
    RandomSlidingWindowSampler.iter f (RandomSlidingWindowSampler.init N ws g₁).1
        (RandomSlidingWindowSampler.init N ws g₁).2 =
      RandomSlidingWindowSampler.iter f (RandomSlidingWindowSampler.init N ws g₂).1
        (RandomSlidingWindowSampler.init N ws g₂).2 ∧
    FairSlidingWindowSampler.fairPasses f labelsLen label benign ws g₁ 0 =
      FairSlidingWindowSampler.fairPasses f labelsLen label benign ws g₂ 0 := by
  refine ⟨rfl, ?_, rfl, rfl⟩
  intro out hout
  exact (fair_init_ok hout).2.1

/-- Witness for C10: a concrete even-window `FairSlidingWindowSampler`
construction whose resulting global generator state is `fresh 42`. -/
theorem global_seed_reset_witness :
    FairSlidingWindowSampler.init 4 (fun i => i % 2) 0 2 (PyRandom.fresh 9) =
      .ok (⟨2, [3], [2], 2⟩, PyRandom.fresh 42) ∧
    ((⟨2, [3], [2], 2⟩, PyRandom.fresh 42) :
        FairSlidingWindowSampler × PyRandom).2 = PyRandom.fresh 42 :=
  ⟨by rfl,
    (global_seed_reset (fun _ _ => 0) 4 4 2 (fun i => i % 2) 0 (PyRandom.fresh 9)
      (PyRandom.fresh 9)).2.1 _ (by rfl)⟩

/-- Claim C4: one `EarlyStopping.evaluate` step, with score the negated
validation loss, from any reachable state.  A fresh instance has no best score
and does not signal stop; the first call records the score as best and
checkpoints without touching the counter or the stop flag; a later call with
`score < best_score - best_score * delta` increments the counter, leaves best
and checkpoint alone, and signals stop exactly when the counter reaches
`patience`; any other later call updates the best score, checkpoints, and
resets the counter to zero. -/
theorem early_stopping_call_spec {M : Type} (s : ESState M) (v : ℚ) (m : M) :
    (∀ p d, (ESState.init M p d).best_score = none ∧
      (ESState.init M p d).early_stop = false) ∧
    (s.best_score = none →
      (s.call v m).best_score = some (-v) ∧ (s.call v m).checkpoint = some m ∧
      (s.call v m).counter = s.counter ∧
      (s.call v m).early_stop = s.early_stop) ∧
    (∀ b, s.best_score = some b → -v < b - b * s.delta →
      (s.call v m).counter = s.counter + 1 ∧ (s.call v m).best_score = some b ∧
      (s.call v m).checkpoint = s.checkpoint ∧
      ((s.call v m).early_stop = true ↔
        s.early_stop = true ∨ s.patience ≤ s.counter + 1)) ∧
    (∀ b, s.best_score = some b → ¬(-v < b - b * s.delta) →
      (s.call v m).best_score = some (-v) ∧ (s.call v m).checkpoint = some m ∧
      (s.call v m).counter = 0 ∧ (s.call v m).early_stop = s.early_stop) := by
  refine ⟨fun p d => ⟨rfl, rfl⟩, ?_, ?_, ?_⟩
  · intro h
    rw [ESState.call_first h]
    exact ⟨rfl, rfl, rfl, rfl⟩
  · intro b hb hlt
    rw [ESState.call_worse hb v m hlt]
    refine ⟨rfl, hb, rfl, ?_⟩
    by_cases hp : s.patience ≤ s.counter + 1 <;> simp [hp]
  · intro b hb hge
    rw [ESState.call_better hb v m hge]
    exact ⟨rfl, rfl, rfl, rfl⟩

/-- Witness for C4: the first call on a fresh instance records the score and
checkpoints. -/
theorem early_stopping_call_spec_witness :
    (ESState.init ℕ 2 0).best_score = none ∧
    (((ESState.init ℕ 2 0).call 5 7).best_score = some (-5) ∧
      ((ESState.init ℕ 2 0).call 5 7).checkpoint = some 7 ∧
      ((ESState.init ℕ 2 0).call 5 7).counter = (ESState.init ℕ 2 0).counter ∧
      ((ESState.init ℕ 2 0).call 5 7).early_stop = (ESState.init ℕ 2 0).early_stop) :=
  ⟨rfl, (early_stopping_call_spec (ESState.init ℕ 2 0) 5 7).2.1 rfl⟩

/-- Counterexample to claim C5 as stated: the strictly decreasing loss
sequence `[100, 99]` with `patience = 1`, `delta = 1/2` DOES signal stop
(`score = -99` is below `best - best * delta = -100 + 50 = -50`, so the
improving call is counted as a non-improvement), and the best score stays
`-100` instead of tracking `-99`. -/
theorem early_stopping_improving_cex :
    (100 : ℚ) > 99 ∧
    (ESState.runCalls (ESState.init Unit 1 (1/2)) [100, 99] ()).early_stop = true ∧
    (ESState.runCalls (ESState.init Unit 1 (1/2)) [100, 99] ()).best_score =
      some (-100) := by
  have h1 : (ESState.init Unit 1 (1/2)).call 100 () =
      ((ESState.init Unit 1 (1/2)).save_checkpoint 100 ()).setBest (-100) :=
    ESState.call_first rfl 100 ()
  have hb1 : (((ESState.init Unit 1 (1/2)).save_checkpoint 100 ()).setBest
      (-100)).best_score = some (-100) := rfl
  have hlt : -(99 : ℚ) < -100 - (-100) *
      (((ESState.init Unit 1 (1/2)).save_checkpoint 100 ()).setBest (-100)).delta := by
    show -(99 : ℚ) < -100 - (-100) * (1/2)
    norm_num
  have h2 := ESState.call_worse hb1 99 () hlt
  have hrun : ESState.runCalls (ESState.init Unit 1 (1/2)) [100, 99] () =
      ((ESState.init Unit 1 (1/2)).call 100 ()).call 99 () := rfl
  rw [hrun, h1]
  refine ⟨by norm_num, ?_, ?_⟩
  · rw [h2]
    rfl
  · rw [h2]
    exact hb1

/-- Claim C5 (amended): with `delta = 0` — for a positive relative `delta` the
threshold `best - best * delta` lies above a negative best score and a
strictly improving sequence can be counted as non-improving, see the
counterexample — every strictly decreasing validation-loss sequence never
signals stop, and after the whole sequence the best score is the negation of
the most recent loss (every prefix of such a sequence is again strictly
decreasing, so this holds after every call). -/
theorem early_stopping_improving_amended {M : Type} (p : ℕ) (m : M) (l : ℚ)
    (ls : List ℚ) (hchain : List.Chain (fun x y => y < x) l ls) :
    (ESState.runCalls (ESState.init M p 0) (l :: ls) m).early_stop = false ∧
    (ESState.runCalls (ESState.init M p 0) (l :: ls) m).best_score =
      some (-(ls.getLastD l)) := by
  have key : ∀ (ls : List ℚ) (s : ESState M) (b : ℚ), s.delta = 0 →
      s.early_stop = false → s.best_score = some b →
      List.Chain (fun x y => y < x) (-b) ls →
      (ESState.runCalls s ls m).early_stop = false ∧
      (ESState.runCalls s ls m).best_score = some (-(ls.getLastD (-b))) := by
    intro ls
    induction ls with
    | nil =>
      intro s b hd hstop hb _
      exact ⟨hstop, by rw [ESState.runCalls, List.foldl_nil, hb,
        List.getLastD_nil, neg_neg]⟩
    | cons v vs ih =>
      intro s b hd hstop hb hch
      rw [List.chain_cons] at hch
      obtain ⟨hv, hch⟩ := hch
      have hnot : ¬(-v < b - b * s.delta) := by
        rw [hd, mul_zero, sub_zero]
        linarith
      have hcall : s.call v m =
          { (s.save_checkpoint v m).setBest (-v) with counter := 0 } :=
        ESState.call_better hb v m hnot
      have hrun : ESState.runCalls s (v :: vs) m =
          ESState.runCalls (s.call v m) vs m := rfl
      rw [hrun, hcall]
      have h1 : ({ (s.save_checkpoint v m).setBest (-v) with counter := 0 } :
          ESState M).delta = 0 := hd
      have h2 : ({ (s.save_checkpoint v m).setBest (-v) with counter := 0 } :
          ESState M).early_stop = false := hstop
      have h3 : ({ (s.save_checkpoint v m).setBest (-v) with counter := 0 } :
          ESState M).best_score = some (-v) := rfl
      have hch' : List.Chain (fun x y => y < x) (-(-v)) vs := by
        rw [neg_neg]; exact hch
      obtain ⟨hstop', hbest'⟩ := ih _ (-v) h1 h2 h3 hch'
      refine ⟨hstop', ?_⟩
      rw [hbest', List.getLastD_cons, neg_neg]
  have hfirst : (ESState.init M p 0).call l m =
      ((ESState.init M p 0).save_checkpoint l m).setBest (-l) := rfl
  have hrun : ESState.runCalls (ESState.init M p 0) (l :: ls) m =
      ESState.runCalls ((ESState.init M p 0).call l m) ls m := rfl
  rw [hrun, hfirst]
  have hch : List.Chain (fun x y => y < x) (-(-l)) ls := by
    rw [neg_neg]; exact hchain
  obtain ⟨hstop, hbest⟩ :=
    key ls (((ESState.init M p 0).save_checkpoint l m).setBest (-l)) (-l)
      rfl rfl rfl hch
  refine ⟨hstop, ?_⟩
  rw [hbest, neg_neg]

/-- Counterexample to claim C1 as stated: over a store of 5 records with
`window_size = 2`, a `FixedWindowSampler` handed the externally supplied
anchor `0` (a valid store index) emits the window `[-1, 0]`, which is not
within `[0, N-1]` — the code never validates the supplied anchors. -/
theorem sampler_windows_in_bounds_cex :
    FixedWindowSampler.iter (FixedWindowSampler.init [0] 2) 0 = [[-1, 0]] ∧
    ¬ GoodWindow 5 2 [(-1 : ℤ), 0] := by
  constructor
  · decide
  · intro h
    have := (h.2.2 (-1) (by decide)).1
    omega

/-- Claim C1 (amended): for `window_size ≥ 1` over a store of `N` records,
every window emitted during any pass consists of exactly `window_size`
strictly consecutive indices within `[0, N-1]`, for: the
`RandomSlidingWindowSampler`; the `FixedWindowSampler` provided every supplied
anchor lies in `[window_size - 1, N - 1]` (the code does not validate them,
see the counterexample); and the `FairSlidingWindowSampler` provided its label
series is no longer than the store. -/
theorem sampler_windows_in_bounds {L : Type} [DecidableEq L] (f : ℕ → ℕ → ℕ)
    (N : ℕ) (ws : ℤ) (fixedAnchors : List ℤ) (labelsLen : ℕ) (label : ℕ → L)
    (benign : L) (g : PyRandom) (hws : 1 ≤ ws)
    (hfix : ∀ a ∈ fixedAnchors, ws - 1 ≤ a ∧ a ≤ (N : ℤ) - 1)
    (hlab : labelsLen ≤ N) :
    (∀ g' : PyRandom, ∀ w ∈ (RandomSlidingWindowSampler.iter f
        (RandomSlidingWindowSampler.init N ws g).1 g').1, GoodWindow N ws w) ∧
    (∀ n : ℕ,
      ∀ w ∈ FixedWindowSampler.iter (FixedWindowSampler.init fixedAnchors ws) n,
        GoodWindow N ws w) ∧
    (∀ n : ℕ,
      ∀ w ∈ FairSlidingWindowSampler.fairPasses f labelsLen label benign ws g n,
        GoodWindow N ws w) := by
  refine ⟨?_, ?_, ?_⟩
  · intro g' w hw
    rw [show (RandomSlidingWindowSampler.init N ws g).1 =
      (⟨N, ws, (N : ℤ) - ws + 1⟩ : RandomSlidingWindowSampler) from rfl,
      random_iter_eq] at hw
    dsimp only at hw
    obtain ⟨a, ha, rfl⟩ := List.mem_map.1 hw
    by_cases hN : ws ≤ (N : ℤ)
    · obtain ⟨hlo, hhi⟩ := drawAnchors_mem f (by omega) _ _ _ ha
      exact windowAt_good (by omega) hlo hhi
    · exfalso
      rw [show (((N : ℤ) - ws + 1)).toNat = 0 by omega] at ha
      simp [RandomSlidingWindowSampler.drawAnchors] at ha
  · intro n w hw
    obtain ⟨a, ha, rfl⟩ := List.mem_map.1 hw
    have ha' : a ∈ fixedAnchors := (pandasShuffle_perm n fixedAnchors).mem_iff.1 ha
    obtain ⟨h1, h2⟩ := hfix a ha'
    exact windowAt_good (by omega) h1 h2
  · intro n w hw
    unfold FairSlidingWindowSampler.fairPasses at hw
    cases hinit : FairSlidingWindowSampler.init labelsLen label benign ws g with
    | error err => rw [hinit] at hw; simp at hw
    | ok sg =>
      rw [hinit] at hw
      change w ∈ FairSlidingWindowSampler.passWindows f sg n at hw
      obtain ⟨heven, hg42, hwsz, hmal, hleg, hnum⟩ := fair_init_ok hinit
      obtain ⟨mal, leg, hpm, hpl, heq⟩ := fair_passWindows_eq f sg n
      rw [heq, hwsz] at hw
      rw [List.mem_flatMap] at hw
      obtain ⟨p, hp, hwp⟩ := hw
      obtain ⟨hp1, hp2⟩ := List.of_mem_zip hp
      have hmem1 : p.1 ∈ eligibleMalicious labelsLen label benign ws := by
        rw [← hmal]; exact hpm.mem_iff.1 hp1
      have hmem2 : p.2 ∈ eligibleLegit labelsLen label benign ws := by
        rw [← hleg]; exact hpl.mem_iff.1 hp2
      obtain ⟨i1, hi1, hlt1, _, hw1⟩ := mem_eligibleMalicious.1 hmem1
      obtain ⟨i2, hi2, hlt2, _, hw2⟩ := mem_eligibleLegit.1 hmem2
      simp only [List.mem_cons, List.not_mem_nil, or_false] at hwp
      rcases hwp with rfl | rfl
      · exact windowAt_good (by omega) (by omega) (by omega)
      · exact windowAt_good (by omega) (by omega) (by omega)

/-- Witness for C1 (amended): store of 4 records, `window_size = 2`, supplied
anchors `[1, 3]`, label series of length 4 with odd positions malicious. -/
theorem sampler_windows_in_bounds_witness :
    ((1 : ℤ) ≤ 2 ∧ (∀ a ∈ [(1 : ℤ), 3], 2 - 1 ≤ a ∧ a ≤ ((4 : ℕ) : ℤ) - 1) ∧
      (4 : ℕ) ≤ 4) ∧
    ((∀ g' : PyRandom, ∀ w ∈ (RandomSlidingWindowSampler.iter (fun _ _ => 0)
        (RandomSlidingWindowSampler.init 4 2 (PyRandom.fresh 0)).1 g').1,
        GoodWindow 4 2 w) ∧
      (∀ n : ℕ,
        ∀ w ∈ FixedWindowSampler.iter (FixedWindowSampler.init [(1 : ℤ), 3] 2) n,
          GoodWindow 4 2 w) ∧
      (∀ n : ℕ, ∀ w ∈ FairSlidingWindowSampler.fairPasses (fun _ _ => 0) 4
          (fun i => i % 2) 0 2 (PyRandom.fresh 0) n, GoodWindow 4 2 w)) :=
  ⟨⟨by decide, by decide, by decide⟩,
    sampler_windows_in_bounds (fun _ _ => 0) 4 2 [(1 : ℤ), 3] 4 (fun i => i % 2)
      0 (PyRandom.fresh 0) (by decide) (by decide) (by decide)⟩

/-- Claim C2: `FairSlidingWindowSampler` raises a validation error at
construction exactly when `window_size` is odd; and every pass over a label
series whose eligible anchors (positions above `window_size - 1`) split into a
malicious and a legit set yields exactly `2 * min(|malicious|, |legit|)`
windows, pairing one malicious-anchored window followed by one benign-anchored
window per zipped pair of the two shuffled sets. -/
theorem fair_sampler_balanced {L : Type} [DecidableEq L] (f : ℕ → ℕ → ℕ)
    (labelsLen : ℕ) (label : ℕ → L) (benign : L) (ws : ℤ) (g : PyRandom)
    (hws : ws % 2 = 0) :
    (∀ (ws' : ℤ) (g' : PyRandom),
      (∃ err, FairSlidingWindowSampler.init labelsLen label benign ws' g' =
        .error err) ↔ ws' % 2 ≠ 0) ∧
    (∀ n : ℕ, ∃ mal leg : List ℤ,
      mal.Perm (eligibleMalicious labelsLen label benign ws) ∧
      leg.Perm (eligibleLegit labelsLen label benign ws) ∧
      (∀ a ∈ mal, ∃ i : ℕ, a = (i : ℤ) ∧ i < labelsLen ∧ label i ≠ benign ∧
        ws - 1 < (i : ℤ)) ∧
      (∀ a ∈ leg, ∃ i : ℕ, a = (i : ℤ) ∧ i < labelsLen ∧ label i = benign ∧
        ws - 1 < (i : ℤ)) ∧
      FairSlidingWindowSampler.fairPasses f labelsLen label benign ws g n =
        (mal.zip leg).flatMap (fun p => [windowAt ws p.1, windowAt ws p.2]) ∧
      (FairSlidingWindowSampler.fairPasses f labelsLen label benign ws g n).length =
        2 * min (eligibleMalicious labelsLen label benign ws).length
          (eligibleLegit labelsLen label benign ws).length) := by
  constructor
  · intro ws' g'
    exact fair_init_error
  · intro n
    have hinit : FairSlidingWindowSampler.init labelsLen label benign ws g =
        .ok (⟨ws, eligibleMalicious labelsLen label benign ws,
          eligibleLegit labelsLen label benign ws,
          2 * min (eligibleMalicious labelsLen label benign ws).length
            (eligibleLegit labelsLen label benign ws).length⟩,
          PyRandom.fresh 42) := by
      unfold FairSlidingWindowSampler.init
      rw [if_neg (not_not_intro hws)]
    have hfp : FairSlidingWindowSampler.fairPasses f labelsLen label benign ws g n =
        FairSlidingWindowSampler.passWindows f
          (⟨ws, eligibleMalicious labelsLen label benign ws,
            eligibleLegit labelsLen label benign ws,
            2 * min (eligibleMalicious labelsLen label benign ws).length
              (eligibleLegit labelsLen label benign ws).length⟩,
            PyRandom.fresh 42) n := by
      unfold FairSlidingWindowSampler.fairPasses
      rw [hinit]
    obtain ⟨mal, leg, hpm, hpl, heq⟩ := fair_passWindows_eq f
      (⟨ws, eligibleMalicious labelsLen label benign ws,
        eligibleLegit labelsLen label benign ws,
        2 * min (eligibleMalicious labelsLen label benign ws).length
          (eligibleLegit labelsLen label benign ws).length⟩,
        PyRandom.fresh 42) n
    refine ⟨mal, leg, hpm, hpl, ?_, ?_, ?_, ?_⟩
    · intro a ha
      exact mem_eligibleMalicious.1 (hpm.mem_iff.1 ha)
    · intro a ha
      exact mem_eligibleLegit.1 (hpl.mem_iff.1 ha)
    · rw [hfp, heq]
    · rw [hfp, heq, flatMap_pair_length, List.length_zip, hpm.length_eq,
        hpl.length_eq]

/-- Witness for C2: label series `[0, 1, 0, 1]` (odd positions malicious,
benign label 0) with `window_size = 2`: the eligible malicious anchors are
`[3]`, the eligible benign anchors are `[2]`, and every pass yields exactly
`2 * min 1 1 = 2` windows. -/
theorem fair_sampler_balanced_witness :
    ((2 : ℤ) % 2 = 0) ∧
    (FairSlidingWindowSampler.fairPasses (fun _ _ => 0) 4 (fun i => i % 2) 0 2
        (PyRandom.fresh 0) 0).length =
      2 * min (eligibleMalicious 4 (fun i => i % 2) 0 2).length
        (eligibleLegit 4 (fun i => i % 2) 0 2).length := by
  refine ⟨by decide, ?_⟩
  obtain ⟨mal, leg, h1, h2, h3, h4, h5, h6⟩ :=
    (fair_sampler_balanced (fun _ _ => 0) 4 (fun i => i % 2) 0 2
      (PyRandom.fresh 0) (by decide)).2 0
  exact h6

/-- `Trainer.validate` on a pass of a non-empty loader returns the averaged
loss. -/
theorem validate_ok (vdl : Loader) (e : ℕ) (hv : vdl.numBatches ≠ 0) :
    Trainer.validate (vdl.passLosses e) =
      .ok ((vdl.passLosses e).sum / ((vdl.passLosses e).length : ℚ)) := by
  have hlen : (vdl.passLosses e).length = vdl.numBatches := by
    rw [Loader.passLosses, List.length_map, List.length_range]
  rw [Trainer.validate, if_neg (by rw [hlen]; exact hv)]

/-- When the `early_stopping` local was never created, the epoch loop raises
`UnboundLocalError` at the first validation trigger (and with a truthy
validation configuration the final epoch always triggers). -/
theorem trainGo_unbound {M : Type} (n_epoch : ℕ) (tdl vdl : Loader)
    (epoch_steps : Option ℕ) (k : ℕ) (modelAt : ℕ → M)
    (hv : vdl.numBatches ≠ 0)
    (htr : ∀ e, ∃ q, Trainer.train_one_epoch (tdl.passLosses e) epoch_steps = .ok q) :
    ∀ (r e : ℕ) (acc : ℚ), 1 ≤ r → e + r = n_epoch →
      Trainer.trainGo n_epoch tdl epoch_steps (some (k, vdl)) modelAt r e acc none =
        .error PyError.unboundLocalError := by
  intro r
  induction r with
  | zero => intro e acc h1 _; omega
  | succ r ih =>
    intro e acc h1 he
    obtain ⟨q, hq⟩ := htr e
    by_cases hdue : Trainer.validationDue n_epoch k e = true
    · simp [Trainer.trainGo, hq, hdue, validate_ok vdl e hv]
    · have hr : 1 ≤ r := by
        rcases Nat.eq_zero_or_pos r with hr0 | hr0
        · exfalso
          apply hdue
          have hlast : e + 1 = n_epoch := by omega
          simp [Trainer.validationDue, hlast]
        · omega
      simp only [Trainer.trainGo, hq, hdue, if_false, Bool.false_eq_true]
      exact ih (e + 1) _ hr (by omega)

/-- Claim C9: calling `Trainer.train` with both a (truthy) validation loader
and a (truthy) validation period but with `patience` or `delta` omitted means
the `early_stopping` local is never created, and the run aborts with an
unbound-local error at the first validation trigger instead of completing
training. -/
theorem train_unbound_early_stopping {M : Type} (n_epoch : ℕ) (tdl vdl : Loader)
    (epoch_steps : Option ℕ) (k : ℕ) (patience : Option ℕ) (delta : Option ℚ)
    (modelAt : ℕ → M) (hne : 1 ≤ n_epoch) (hv : vdl.numBatches ≠ 0) (hk : k ≠ 0)
    (hpd : patience = none ∨ delta = none)
    (htr : ∀ e, ∃ q, Trainer.train_one_epoch (tdl.passLosses e) epoch_steps = .ok q) :
    Trainer.train n_epoch tdl epoch_steps (some k) (some vdl) patience delta
      modelAt = .error PyError.unboundLocalError := by
  have h0 : ¬(n_epoch = 0) := by omega
  have hgo := trainGo_unbound n_epoch tdl vdl epoch_steps k modelAt hv htr
    n_epoch 0 0 (by omega) (by omega)
  rcases hpd with rfl | rfl
  · cases delta <;> simp [Trainer.train, hv, hk, h0, hgo]
  · cases patience <;> simp [Trainer.train, hv, hk, h0, hgo]

/-- Witness for C9: one epoch, one-batch loaders, validation period 1, and
`patience = delta = None`. -/
theorem train_unbound_early_stopping_witness :
    (1 ≤ 1 ∧ (Loader.mk 1 (fun _ _ => 1)).numBatches ≠ 0 ∧ (1 : ℕ) ≠ 0) ∧
    Trainer.train 1 (Loader.mk 1 (fun _ _ => 1)) none (some 1)
        (some (Loader.mk 1 (fun _ _ => 1))) none none (fun _ => ()) =
      .error PyError.unboundLocalError :=
  ⟨⟨le_refl 1, by decide, by decide⟩,
    train_unbound_early_stopping 1 (Loader.mk 1 (fun _ _ => 1))
      (Loader.mk 1 (fun _ _ => 1)) none 1 none none (fun _ => ())
      (le_refl 1) (by decide) (by decide) (Or.inl rfl)
      (fun e => ⟨_, rfl⟩)⟩

/-- Counterexample to claim C6 as stated: `epoch_steps = 0` on a loader with
2 batches does not exceed the batch count, yet the epoch neither returns
`sum / epoch_steps` nor raises a configuration error — Python raises
`ZeroDivisionError` at `epoch_loss /= epoch_steps`. -/
theorem train_epoch_steps_cex :
    ¬(2 < 0) ∧
    Trainer.train 1 ⟨2, fun _ _ => 1⟩ (some 0) none none none none
        (fun _ => ()) = .error PyError.zeroDivisionError ∧
    Trainer.train_one_epoch (Loader.passLosses ⟨2, fun _ _ => 1⟩ 0) (some 0) =
      .error PyError.zeroDivisionError := by
  exact ⟨by decide, rfl, rfl⟩

/-- Claim C6 (amended): with `epoch_steps = k` supplied, `train_one_epoch`
raises a configuration error (`ValueError`) when `k` exceeds the loader's
batch count; otherwise, when `k ≥ 1`, it consumes exactly the first `k`
batches and returns the sum of their losses divided by `k`; when `k = 0` it
raises `ZeroDivisionError` instead of returning.  With `epoch_steps` absent it
runs the loader to exhaustion and averages over all its batches. -/
theorem train_one_epoch_spec (losses : List ℚ) (k : ℕ) :
    (losses.length < k →
      Trainer.train_one_epoch losses (some k) = .error PyError.valueError) ∧
    (1 ≤ k → k ≤ losses.length →
      Trainer.train_one_epoch losses (some k) =
        .ok ((losses.take k).sum / (k : ℚ))) ∧
    (k = 0 →
      Trainer.train_one_epoch losses (some k) = .error PyError.zeroDivisionError) ∧
    (1 ≤ losses.length →
      Trainer.train_one_epoch losses none =
        .ok (losses.sum / (losses.length : ℚ))) := by
  refine ⟨?_, ?_, ?_, ?_⟩
  · intro h
    simp [Trainer.train_one_epoch, h]
  · intro h1 h2
    have hne1 : ¬(losses.length < k) := by omega
    have hne2 : ¬(k = 0) := by omega
    simp [Trainer.train_one_epoch, hne1, hne2]
  · intro h
    subst h
    have hne1 : ¬(losses.length < 0) := by omega
    simp [Trainer.train_one_epoch, hne1]
  · intro h
    have hne : ¬(losses.length = 0) := by omega
    simp [Trainer.train_one_epoch, hne]

/-- Witness for C6 (amended): `epoch_steps = 2` on a 3-batch pass consumes the
first two batches; `epoch_steps = 6` on the same pass raises the configuration
error (the spec's own example, scaled down). -/
theorem train_one_epoch_spec_witness :
    (([ (1 : ℚ), 2, 3 ].length < 6) ∧ 1 ≤ 2 ∧ 2 ≤ [ (1 : ℚ), 2, 3 ].length) ∧
    Trainer.train_one_epoch [(1 : ℚ), 2, 3] (some 6) = .error PyError.valueError ∧
    Trainer.train_one_epoch [(1 : ℚ), 2, 3] (some 2) =
      .ok (([(1 : ℚ), 2, 3].take 2).sum / ((2 : ℕ) : ℚ)) :=
  ⟨⟨by decide, by decide, by decide⟩,
    (train_one_epoch_spec [(1 : ℚ), 2, 3] 6).1 (by decide),
    (train_one_epoch_spec [(1 : ℚ), 2, 3] 2).2.1 (by decide) (by decide)⟩

/-- Witness for C5 (amended) on the strictly decreasing losses `[3, 2, 1]`
with `patience = 2` and `delta = 0`. -/
theorem early_stopping_improving_amended_witness :
    List.Chain (fun x y : ℚ => y < x) 3 [2, 1] ∧
    ((ESState.runCalls (ESState.init Unit 2 0) (3 :: [2, 1]) ()).early_stop =
        false ∧
      (ESState.runCalls (ESState.init Unit 2 0) (3 :: [2, 1]) ()).best_score =
        some (-(([2, 1] : List ℚ).getLastD 3))) :=
  ⟨by norm_num, early_stopping_improving_amended 2 () 3 [2, 1] (by norm_num)⟩

/-- Claim C8: for every non-empty window of in-bounds record indices, with the
label transformation unset (as in the shipped pipelines) and the numeric
transformation unset, `__getitem__` returns as supervision target exactly the
label of the last (anchor) record; the labels of the earlier records in the
window cannot affect the target (any label column agreeing at the anchor gives
the same target); and the feature tensor is the per-record concatenation of
the numeric slice and the (possibly transformed) categorical slice. -/
theorem getitem_target_spec {S : Type} (ds : TabularDataset S) (idx : List ℕ)
    (hne : idx ≠ []) (hlT : ds.labelsT = none) (hnT : ds.numericT = none)
    (_hbound : ∀ i ∈ idx, i < ds.labels.length) :
    (ds.getitem idx).2 = some (ds.labels.getD (idx.getLast hne) 0) ∧
    (∀ labels2 : List ℚ,
      labels2.getD (idx.getLast hne) 0 = ds.labels.getD (idx.getLast hne) 0 →
      (TabularDataset.getitem { ds with labels := labels2 } idx).2 =
        (ds.getitem idx).2) ∧
    (ds.getitem idx).1 =
      List.zipWith (fun r c => r ++ c) (idx.map (fun i => ds.numeric.getD i []))
        (applyOpt ds.categoricalT (idx.map (fun i => ds.categorical.getD i []))
          ds.stats) := by
  have htarget : ∀ labs : List ℚ,
      (applyOpt (none : Option (List ℚ × S → List ℚ × S))
          (idx.map (fun i => labs.getD i 0)) ds.stats).getLast? =
        some (labs.getD (idx.getLast hne) 0) := by
    intro labs
    show (idx.map (fun i => labs.getD i 0)).getLast? = _
    rw [List.getLast?_map, List.getLast?_eq_getLast idx hne, Option.map_some']
  refine ⟨?_, ?_, ?_⟩
  · show (applyOpt ds.labelsT (idx.map (fun i => ds.labels.getD i 0))
        ds.stats).getLast? = _
    rw [hlT]
    exact htarget ds.labels
  · intro labels2 hagree
    show (applyOpt ds.labelsT (idx.map (fun i => labels2.getD i 0))
        ds.stats).getLast? =
      (applyOpt ds.labelsT (idx.map (fun i => ds.labels.getD i 0))
        ds.stats).getLast?
    rw [hlT, htarget labels2, htarget ds.labels, hagree]
  · show List.zipWith (fun r c => r ++ c)
        (applyOpt ds.numericT (idx.map (fun i => ds.numeric.getD i [])) ds.stats)
        (applyOpt ds.categoricalT (idx.map (fun i => ds.categorical.getD i []))
          ds.stats) = _
    rw [hnT]
    rfl

/-- Witness for C8: a two-record window over a tiny store; the target is the
label of the second (anchor) record. -/
theorem getitem_target_spec_witness :
    (([0, 1] : List ℕ) ≠ [] ∧ (∀ i ∈ ([0, 1] : List ℕ), i < 2)) ∧
    ((TabularDataset.mk [[1], [2]] [[5], [6]] [10, 20] () none none none).getitem
        [0, 1]).2 =
      some (([10, 20] : List ℚ).getD (([0, 1] : List ℕ).getLast (by decide)) 0) :=
  ⟨⟨by decide, by decide⟩,
    (getitem_target_spec
      (TabularDataset.mk [[1], [2]] [[5], [6]] [10, 20] () none none none)
      [0, 1] (by decide) rfl rfl (by decide)).1⟩

end NIDS
